import Mathlib

/-!
# Verification of the gamerchat presence and message-routing engine

A shallow embedding of `src/backend/server.js`. The server keeps two
in-memory maps:

* `users` : `Map socket.id → { id, username, lastSeen }` (the Presence
  Registry, keyed by connection handle);
* `conversations` : `Map conversationKey → Message[]` (the Conversation
  Store, keyed by the sorted join of the two usernames).

JavaScript `Map`s are modelled as association lists with `Map`-faithful
operations: `set` replaces an existing key in place and appends a fresh
key at the end, `delete` removes the entry, `get` looks the key up.
Timestamps (`Date.now()` and the message's ISO timestamp) are modelled as
natural numbers supplied by the caller; the fresh UUID of a message is a
caller-supplied string. Socket.io emissions (`io.emit`, `socket.emit`,
`socket.broadcast.emit`, `io.to(room).emit`) are modelled as an explicit
list of `Emit` values returned by each handler.
-/

/-- A Presence Registry entry: the object built in the `join` handler,
`{ id: socket.id, username: userData.username, lastSeen: Date.now() }`. -/
structure User where
  id : String
  username : String
  lastSeen : Nat
deriving DecidableEq, Repr

/-- The message object built in the `sendMessage` handler. -/
structure Message where
  id : String
  senderId : String
  senderName : String
  recipientId : String
  text : String
  timestamp : Nat
deriving DecidableEq, Repr

/-- One socket.io emission performed by the server.

* `usersList l` — `io.emit('users', l)`: full snapshot to every connection.
* `userJoined exceptId u` — `socket.broadcast.emit('userJoined', u)`:
  delta to every connection other than `exceptId`.
* `userLeft exceptId u` — `socket.broadcast.emit('userLeft', u)`.
* `joinSuccess toId` / `joinError toId msg` — `socket.emit(...)` to the
  requesting connection only.
* `newMessage room m` — `io.to(room).emit('newMessage', {...m, type:
  'received'})`: the `received`-tagged copy, pushed to the socket whose id
  is `room` when that socket is open.
* `messageSent toId m` — `socket.emit('messageSent', {...m, type:
  'sent'})`: the `sent`-tagged copy to the sender. -/
inductive Emit where
  | usersList (l : List User)
  | userJoined (exceptId : String) (u : User)
  | userLeft (exceptId : String) (u : User)
  | joinSuccess (toId : String)
  | joinError (toId : String) (msg : String)
  | newMessage (room : String) (m : Message)
  | messageSent (toId : String) (m : Message)
deriving DecidableEq, Repr

/-- `String.prototype.trim`: strip leading and trailing whitespace. -/
def strTrim (s : String) : String :=
  ⟨((s.data.dropWhile Char.isWhitespace).reverse.dropWhile
      Char.isWhitespace).reverse⟩

/-- `Map.prototype.get`: first (and, for states reachable from the empty
map, only) binding of the key. -/
def mapGet {α : Type} : List (String × α) → String → Option α
  | [], _ => none
  | (k', v) :: rest, k => if k' = k then some v else mapGet rest k

/-- `Map.prototype.set`: replace the binding in place if the key is
present, append at the end otherwise. -/
def mapSet {α : Type} : List (String × α) → String → α → List (String × α)
  | [], k, v => [(k, v)]
  | (k', v') :: rest, k, v =>
      if k' = k then (k, v) :: rest else (k', v') :: mapSet rest k v

/-- `Map.prototype.delete`: drop the binding of the key. -/
def mapDelete {α : Type} : List (String × α) → String → List (String × α)
  | [], _ => []
  | (k', v') :: rest, k =>
      if k' = k then rest else (k', v') :: mapDelete rest k

/-- `HEARTBEAT_TIMEOUT_MS = 30000`. -/
def HEARTBEAT_TIMEOUT_MS : Nat := 30000

/-- The mutable server state: the `users` map (Presence Registry) and the
`conversations` map (Conversation Store). -/
structure ServerState where
  users : List (String × User)
  conversations : List (String × List Message)
deriving DecidableEq, Repr

/-- The empty initial state: `new Map()` twice. -/
def initialState : ServerState := ⟨[], []⟩

/-- `Array.from(users.values())`. -/
def userValues (l : List (String × User)) : List User := l.map Prod.snd

/-- The `join` handler. `userData.username` is `Option String` (`none`
models an absent/undefined field); `!userData.username ||
userData.username.trim() === ''` rejects the request with a `joinError`,
otherwise the user object is stored under `socket.id` and the snapshot,
the `userJoined` delta and the `joinSuccess` acknowledgment are emitted. -/
def join (socketId : String) (username : Option String) (now : Nat)
    (st : ServerState) : ServerState × List Emit :=
  match username with
  | none => (st, [Emit.joinError socketId "Username is required"])
  | some uname =>
    if strTrim uname = "" then
      (st, [Emit.joinError socketId "Username is required"])
    else
      let user : User := ⟨socketId, uname, now⟩
      let users1 := mapSet st.users socketId user
      ({ st with users := users1 },
       [Emit.usersList (userValues users1),
        Emit.userJoined socketId user,
        Emit.joinSuccess socketId])

/-- The shared removal step of the `logout` and `disconnect` handlers: if
the handle is registered, delete it and emit the updated snapshot plus the
`userLeft` delta; otherwise do nothing. -/
def removeUser (socketId : String) (st : ServerState) :
    ServerState × List Emit :=
  match mapGet st.users socketId with
  | some user =>
    let users1 := mapDelete st.users socketId
    ({ st with users := users1 },
     [Emit.usersList (userValues users1), Emit.userLeft socketId user])
  | none => (st, [])

/-- The `disconnect` handler is exactly the removal step. -/
def disconnect (socketId : String) (st : ServerState) :
    ServerState × List Emit :=
  removeUser socketId st

/-- The `logout` handler: the removal step, followed by
`socket.disconnect(true)`, which fires the `disconnect` handler on the
already-updated state. -/
def logout (socketId : String) (st : ServerState) :
    ServerState × List Emit :=
  let r1 := removeUser socketId st
  let r2 := disconnect socketId r1.1
  (r2.1, r1.2 ++ r2.2)

/-- The `heartbeat` handler: refresh `lastSeen` when the handle is
registered, otherwise do nothing. It emits nothing. -/
def heartbeat (socketId : String) (now : Nat) (st : ServerState) :
    ServerState :=
  match mapGet st.users socketId with
  | some user =>
    { st with users := mapSet st.users socketId { user with lastSeen := now } }
  | none => st

/-- Lexicographic comparison of character lists by code point, the order
used by JavaScript's default `Array.prototype.sort` on strings. -/
def charListLe : List Char → List Char → Bool
  | [], _ => true
  | _ :: _, [] => false
  | c :: cs, d :: ds =>
    if c.toNat < d.toNat then true
    else if d.toNat < c.toNat then false
    else charListLe cs ds

/-- `a <= b` in the string order used by `Array.prototype.sort`. -/
def strLe (a b : String) : Bool := charListLe a.data b.data

/-- `[a, b].sort().join('-')`: the canonical conversation key. -/
def conversationKey (a b : String) : String :=
  if strLe a b then a ++ "-" ++ b else b ++ "-" ++ a

/-- The `sendMessage` handler. `msgId` models the fresh `uuidv4()` and
`now` the message timestamp. If the sender handle or the recipient handle
is not registered the handler returns silently (no emission, no store
change); otherwise the message is appended under the canonical key and the
`received` copy (to the recipient's room) and `sent` copy (to the sender)
are emitted. -/
def sendMessage (socketId recipientId text msgId : String) (now : Nat)
    (st : ServerState) : ServerState × List Emit :=
  match mapGet st.users socketId with
  | none => (st, [])
  | some sender =>
    match mapGet st.users recipientId with
    | none => (st, [])
    | some recipient =>
      let message : Message :=
        ⟨msgId, socketId, sender.username, recipientId, text, now⟩
      let key := conversationKey sender.username recipient.username
      let conv := (mapGet st.conversations key).getD []
      ({ st with
         conversations := mapSet st.conversations key (conv ++ [message]) },
       [Emit.newMessage recipientId message,
        Emit.messageSent socketId message])

/-- Whether a registry entry is stale in the sweep:
`!user.lastSeen || (now - user.lastSeen > HEARTBEAT_TIMEOUT_MS) ||
!staleSocket`. `openSockets` models `io.sockets.sockets` (the ids of the
currently open channels); a falsy `lastSeen` is the value `0`. -/
def isStale (now : Nat) (openSockets : List String) (socketId : String)
    (u : User) : Bool :=
  u.lastSeen == 0 || decide (HEARTBEAT_TIMEOUT_MS < now - u.lastSeen) ||
    !(openSockets.contains socketId)

/-- `staleSocket.disconnect(true)` for each evicted handle whose channel
is still open fires the `disconnect` handler; run them in order. -/
def runDisconnects : List String → ServerState → ServerState × List Emit
  | [], st => (st, [])
  | sid :: rest, st =>
    let r1 := disconnect sid st
    let r2 := runDisconnects rest r1.1
    (r2.1, r1.2 ++ r2.2)

/-- One iteration of the `setInterval` stale-user sweep: every stale entry
is deleted; if anything was deleted the updated snapshot is emitted; each
evicted handle whose channel is still open is force-disconnected, firing
the `disconnect` handler on the post-deletion state. -/
def sweep (now : Nat) (openSockets : List String) (st : ServerState) :
    ServerState × List Emit :=
  let evicted := st.users.filter (fun e => isStale now openSockets e.1 e.2)
  let kept := st.users.filter (fun e => !(isStale now openSockets e.1 e.2))
  let st1 : ServerState := { st with users := kept }
  let e1 := if evicted.isEmpty then ([] : List Emit)
            else [Emit.usersList (userValues kept)]
  let r2 := runDisconnects
    ((evicted.filter (fun e => openSockets.contains e.1)).map Prod.fst) st1
  (r2.1, e1 ++ r2.2)

/-- `GET /api/conversations/:username1/:username2`: look the canonical key
up in the Conversation Store, defaulting to the empty list. -/
def getHistory (username1 username2 : String) (st : ServerState) :
    List Message :=
  (mapGet st.conversations (conversationKey username1 username2)).getD []

/-- Number of `userLeft` delta broadcasts in an emission list. -/
def countUserLeft (es : List Emit) : Nat :=
  (es.filter fun e => match e with
    | Emit.userLeft _ _ => true
    | _ => false).length

/-- Concrete state: connection `s1` joined as `alice` at time 1. -/
def stA : ServerState := (join "s1" (some "alice") 1 initialState).1

/-- Concrete state: `s1` joined as `alice` at time 1, then `s2` joined as
`bob` at time 2. -/
def stAB : ServerState := (join "s2" (some "bob") 2 stA).1

/-! ## Association-list laws -/

theorem mapGet_mapSet_self {α : Type} (l : List (String × α)) (k : String)
    (v : α) : mapGet (mapSet l k v) k = some v := by
  induction l with
  | nil => simp [mapSet, mapGet]
  | cons e rest ih =>
    obtain ⟨k', v'⟩ := e
    by_cases h : k' = k <;> simp [mapSet, mapGet, h, ih]

theorem mapGet_mapSet_ne {α : Type} (l : List (String × α)) (k k' : String)
    (v : α) (h : k' ≠ k) : mapGet (mapSet l k v) k' = mapGet l k' := by
  induction l with
  | nil => simp [mapSet, mapGet, Ne.symm h]
  | cons e rest ih =>
    obtain ⟨k0, v0⟩ := e
    by_cases h0 : k0 = k
    · subst h0
      simp [mapSet, mapGet, Ne.symm h]
    · simp [mapSet, mapGet, h0, ih]

theorem mapGet_eq_none_of_not_mem_keys {α : Type} (l : List (String × α))
    (k : String) (h : k ∉ l.map Prod.fst) : mapGet l k = none := by
  induction l with
  | nil => simp [mapGet]
  | cons e rest ih =>
    obtain ⟨k', v'⟩ := e
    simp only [List.map_cons, List.mem_cons, not_or] at h
    simp [mapGet, Ne.symm h.1, ih h.2]

theorem mapGet_mem {α : Type} (l : List (String × α)) (k : String) (v : α)
    (h : mapGet l k = some v) : (k, v) ∈ l := by
  induction l with
  | nil => simp [mapGet] at h
  | cons e rest ih =>
    obtain ⟨k', v'⟩ := e
    by_cases h0 : k' = k
    · subst h0
      simp [mapGet] at h
      simp [h]
    · simp [mapGet, h0] at h
      exact List.mem_cons_of_mem _ (ih h)

theorem mapGet_mapDelete_self {α : Type} (l : List (String × α)) (k : String)
    (hnd : (l.map Prod.fst).Nodup) : mapGet (mapDelete l k) k = none := by
  induction l with
  | nil => simp [mapDelete, mapGet]
  | cons e rest ih =>
    obtain ⟨k', v'⟩ := e
    simp only [List.map_cons, List.nodup_cons] at hnd
    by_cases h0 : k' = k
    · subst h0
      simpa [mapDelete] using mapGet_eq_none_of_not_mem_keys rest k' hnd.1
    · simp [mapDelete, mapGet, h0, ih hnd.2]

theorem mapDelete_mem {α : Type} (l : List (String × α)) (k : String)
    (e : String × α) (h : e ∈ mapDelete l k) : e ∈ l := by
  induction l with
  | nil => simp [mapDelete] at h
  | cons e0 rest ih =>
    obtain ⟨k', v'⟩ := e0
    by_cases h0 : k' = k
    · subst h0
      simp [mapDelete] at h
      exact List.mem_cons_of_mem _ h
    · simp only [mapDelete, if_neg h0, List.mem_cons] at h
      rcases h with h | h
      · simp [h]
      · exact List.mem_cons_of_mem _ (ih h)

theorem keys_nodup_unique {α : Type} (l : List (String × α)) (k : String)
    (u v : α) (hnd : (l.map Prod.fst).Nodup) (h1 : (k, u) ∈ l)
    (h2 : (k, v) ∈ l) : u = v := by
  induction l with
  | nil => simp at h1
  | cons e rest ih =>
    obtain ⟨k', v'⟩ := e
    simp only [List.map_cons, List.nodup_cons] at hnd
    simp only [List.mem_cons, Prod.mk.injEq] at h1 h2
    rcases h1 with ⟨hk1, hv1⟩ | h1
    · rcases h2 with ⟨hk2, hv2⟩ | h2
      · exact hv1.trans hv2.symm
      · exact absurd (hk1 ▸ List.mem_map_of_mem Prod.fst h2) hnd.1
    · rcases h2 with ⟨hk2, hv2⟩ | h2
      · exact absurd (hk2 ▸ List.mem_map_of_mem Prod.fst h1) hnd.1
      · exact ih hnd.2 h1 h2

theorem mapGet_filter_none {α : Type} (p : String × α → Bool)
    (l : List (String × α)) (k : String)
    (h : ∀ v, (k, v) ∈ l → p (k, v) = false) :
    mapGet (l.filter p) k = none := by
  induction l with
  | nil => simp [mapGet]
  | cons e rest ih =>
    obtain ⟨k', v'⟩ := e
    have hrest : ∀ v, (k, v) ∈ rest → p (k, v) = false := fun v hv =>
      h v (List.mem_cons_of_mem _ hv)
    by_cases h0 : k' = k
    · subst h0
      have := h v' (List.mem_cons_self _ _)
      simp [List.filter_cons, this, ih hrest]
    · cases hp : p (k', v') <;>
        simp [List.filter_cons, hp, mapGet, h0, ih hrest]

/-! ## The sort order and the conversation key -/

theorem charListLe_refl (l : List Char) : charListLe l l = true := by
  induction l with
  | nil => rfl
  | cons c cs ih => simp [charListLe, ih]

theorem charListLe_total (l1 l2 : List Char)
    (h : charListLe l1 l2 = false) : charListLe l2 l1 = true := by
  induction l1 generalizing l2 with
  | nil => simp [charListLe] at h
  | cons c cs ih =>
    cases l2 with
    | nil => rfl
    | cons d ds =>
      by_cases h1 : c.toNat < d.toNat
      · simp [charListLe, h1] at h
      · by_cases h2 : d.toNat < c.toNat
        · simp [charListLe, h2]
        · simp only [charListLe, if_neg h1, if_neg h2] at h
          simp [charListLe, h1, h2, ih _ h]

theorem charListLe_antisymm (l1 l2 : List Char)
    (h1 : charListLe l1 l2 = true) (h2 : charListLe l2 l1 = true) :
    l1 = l2 := by
  induction l1 generalizing l2 with
  | nil =>
    cases l2 with
    | nil => rfl
    | cons d ds => simp [charListLe] at h2
  | cons c cs ih =>
    cases l2 with
    | nil => simp [charListLe] at h1
    | cons d ds =>
      by_cases hcd : c.toNat < d.toNat
      · have : ¬ d.toNat < c.toNat := by omega
        simp [charListLe, hcd, this] at h2
      · by_cases hdc : d.toNat < c.toNat
        · simp [charListLe, hcd, hdc] at h1
        · have h3 : c.toNat = d.toNat := by omega
          have hc : c = d := Char.ext (UInt32.toNat.inj h3)
          simp only [charListLe, if_neg hcd, if_neg hdc] at h1
          have hds : ¬ d.toNat < c.toNat := hdc
          simp only [charListLe, if_neg hdc, if_neg hcd] at h2
          rw [hc, ih ds h1 h2]

theorem conversationKey_comm (a b : String) :
    conversationKey a b = conversationKey b a := by
  unfold conversationKey
  cases hab : strLe a b
  · have hba : strLe b a = true := charListLe_total a.data b.data hab
    simp [hba]
  · cases hba : strLe b a
    · simp [hba]
    · have : a.data = b.data := charListLe_antisymm a.data b.data hab hba
      have hab2 : a = b := by
        cases a; cases b; exact congrArg String.mk this
      simp [hab2]

theorem conversationKey_self (a : String) :
    conversationKey a a = a ++ "-" ++ a := by
  unfold conversationKey
  simp [strLe, charListLe_refl]

/-! ## Framing of the Conversation Store by presence operations -/

theorem removeUser_conversations (sid : String) (st : ServerState) :
    (removeUser sid st).1.conversations = st.conversations := by
  unfold removeUser
  cases mapGet st.users sid <;> rfl

theorem removeUser_users_mem (sid : String) (st : ServerState)
    (e : String × User) (h : e ∈ (removeUser sid st).1.users) :
    e ∈ st.users := by
  unfold removeUser at h
  cases hg : mapGet st.users sid <;> rw [hg] at h
  · exact h
  · exact mapDelete_mem st.users sid e h

theorem runDisconnects_conversations (ids : List String) (st : ServerState) :
    (runDisconnects ids st).1.conversations = st.conversations := by
  induction ids generalizing st with
  | nil => rfl
  | cons sid rest ih =>
    simp only [runDisconnects]
    rw [ih, disconnect, removeUser_conversations]

theorem runDisconnects_users_mem (ids : List String) (st : ServerState)
    (e : String × User) (h : e ∈ (runDisconnects ids st).1.users) :
    e ∈ st.users := by
  induction ids generalizing st with
  | nil => exact h
  | cons sid rest ih =>
    simp only [runDisconnects] at h
    exact removeUser_users_mem sid st e (ih _ h)

theorem runDisconnects_noop (ids : List String) (st : ServerState)
    (h : ∀ sid ∈ ids, mapGet st.users sid = none) :
    runDisconnects ids st = (st, []) := by
  induction ids with
  | nil => rfl
  | cons sid rest ih =>
    have h1 : disconnect sid st = (st, []) := by
      unfold disconnect removeUser
      rw [h sid (List.mem_cons_self _ _)]
    have h2 : runDisconnects rest st = (st, []) :=
      ih (fun sid2 hm => h sid2 (List.mem_cons_of_mem _ hm))
    simp [runDisconnects, h1, h2]

theorem sweep_conversations (now : Nat) (openSockets : List String)
    (st : ServerState) :
    (sweep now openSockets st).1.conversations = st.conversations := by
  unfold sweep
  simp only [runDisconnects_conversations]

theorem mapSet_map_of_get {α β : Type} (f : String × α → β)
    (l : List (String × α)) (k : String) (v w : α)
    (hget : mapGet l k = some v) (hf : f (k, w) = f (k, v)) :
    (mapSet l k w).map f = l.map f := by
  induction l with
  | nil => simp [mapGet] at hget
  | cons e rest ih =>
    obtain ⟨k0, v0⟩ := e
    by_cases h0 : k0 = k
    · subst h0
      simp [mapGet] at hget
      rw [← hget] at hf
      simp [mapSet, hf]
    · simp only [mapGet, if_neg h0] at hget
      simp [mapSet, h0, ih hget]

/-! ## The claims -/

/-- C4: when both the sender handle and the recipient handle are present
in the Presence Registry, `sendMessage` leaves the registry untouched,
appends exactly one freshly-built message to the Conversation Store under
the canonical key, and emits exactly one `received`-tagged push to the
recipient's room (delivered at most once, to the single socket of that id)
and exactly one `sent`-tagged push to the sender — all three carrying the
same message, hence identical `id`, `text` and `timestamp`. -/
theorem sendMessage_success_effects (st : ServerState)
    (sid rid text mid : String) (now : Nat) (sender recipient : User)
    (hs : mapGet st.users sid = some sender)
    (hr : mapGet st.users rid = some recipient) :
    sendMessage sid rid text mid now st =
      ({ users := st.users,
         conversations := mapSet st.conversations
           (conversationKey sender.username recipient.username)
           ((mapGet st.conversations
               (conversationKey sender.username recipient.username)).getD []
             ++ [⟨mid, sid, sender.username, rid, text, now⟩]) },
       [Emit.newMessage rid ⟨mid, sid, sender.username, rid, text, now⟩,
        Emit.messageSent sid ⟨mid, sid, sender.username, rid, text, now⟩]) := by
  unfold sendMessage
  rw [hs, hr]

/-- Witness for C4: `alice` on `s1` sends "hi" to `bob` on `s2`. -/
theorem sendMessage_success_effects_witness :
    sendMessage "s1" "s2" "hi" "m1" 5 stAB =
      ({ users := stAB.users,
         conversations := mapSet stAB.conversations
           (conversationKey "alice" "bob")
           ((mapGet stAB.conversations (conversationKey "alice" "bob")).getD []
             ++ [⟨"m1", "s1", "alice", "s2", "hi", 5⟩]) },
       [Emit.newMessage "s2" ⟨"m1", "s1", "alice", "s2", "hi", 5⟩,
        Emit.messageSent "s1" ⟨"m1", "s1", "alice", "s2", "hi", 5⟩]) :=
  sendMessage_success_effects stAB "s1" "s2" "hi" "m1" 5
    ⟨"s1", "alice", 1⟩ ⟨"s2", "bob", 2⟩ (by decide) (by decide)

/-- C5: a join whose identity is absent, empty or whitespace-only is
rejected with the `joinError` acknowledgment to the requester alone; the
state (registry and store) is returned unchanged and no snapshot or delta
broadcast is emitted. -/
theorem join_rejects_blank_identity (st : ServerState) (sid : String)
    (username : Option String) (now : Nat)
    (h : username = none ∨ ∃ s, username = some s ∧ strTrim s = "") :
    join sid username now st
      = (st, [Emit.joinError sid "Username is required"]) := by
  rcases h with h | ⟨s, hs, ht⟩
  · subst h; rfl
  · subst hs; simp [join, ht]

/-- Witness for C5: joining with a whitespace-only identity. -/
theorem join_rejects_blank_identity_witness :
    join "s1" (some " ") 3 initialState
      = (initialState, [Emit.joinError "s1" "Username is required"]) :=
  join_rejects_blank_identity initialState "s1" (some " ") 3
    (Or.inr ⟨" ", rfl, by decide⟩)

/-- C8: a heartbeat on a registered handle changes only that entry's
`lastSeen` field — the entry keeps its `id` and `username`, every other
key's binding is unchanged, and the Conversation Store is untouched; a
heartbeat on an unregistered handle leaves the whole state unchanged, so
it can never insert (resurrect) an entry. -/
theorem heartbeat_frame (st : ServerState) (sid : String) (now : Nat)
    (u : User) (h : mapGet st.users sid = some u) :
    ((heartbeat sid now st).conversations = st.conversations
     ∧ mapGet (heartbeat sid now st).users sid = some ⟨u.id, u.username, now⟩
     ∧ ∀ sid2, sid2 ≠ sid →
         mapGet (heartbeat sid now st).users sid2 = mapGet st.users sid2)
    ∧ ∀ st2 : ServerState, ∀ sid2 : String,
        mapGet st2.users sid2 = none → heartbeat sid2 now st2 = st2 := by
  constructor
  · unfold heartbeat
    rw [h]
    refine ⟨rfl, ?_, ?_⟩
    · exact mapGet_mapSet_self st.users sid { u with lastSeen := now }
    · intro sid2 h2
      exact mapGet_mapSet_ne st.users sid sid2 _ h2
  · intro st2 sid2 h2
    unfold heartbeat
    rw [h2]

/-- Witness for C8: a heartbeat for `s1` in the two-user state. -/
theorem heartbeat_frame_witness :
    ((heartbeat "s1" 9 stAB).conversations = stAB.conversations
     ∧ mapGet (heartbeat "s1" 9 stAB).users "s1" = some ⟨"s1", "alice", 9⟩
     ∧ ∀ sid2, sid2 ≠ "s1" →
         mapGet (heartbeat "s1" 9 stAB).users sid2 = mapGet stAB.users sid2)
    ∧ ∀ st2 : ServerState, ∀ sid2 : String,
        mapGet st2.users sid2 = none → heartbeat sid2 9 st2 = st2 :=
  heartbeat_frame stAB "s1" 9 ⟨"s1", "alice", 1⟩ (by decide)

/-- C9: the canonical key is not injective on unordered pairs of
identities: the distinct pairs {"a-b", "c"} and {"a", "b-c"} share the key
"a-b-c", and a message routed between users named "a-b" and "c" shows up
in the history lookup for ("a", "b-c"). -/
theorem conversationKey_collision :
    conversationKey "a-b" "c" = conversationKey "a" "b-c"
    ∧ ("a-b" : String) ≠ "a" ∧ ("a-b" : String) ≠ "b-c"
    ∧ getHistory "a" "b-c"
        (sendMessage "s1" "s2" "hi" "m1" 5
          (join "s2" (some "c") 2
            (join "s1" (some "a-b") 1 initialState).1).1).1
      = [⟨"m1", "s1", "a-b", "s2", "hi", 5⟩] :=
  ⟨by decide, by decide, by decide, by decide⟩

/-- C10: a joined handle may send to itself: the message is appended under
the canonical key of the identity paired with itself, and both the
`received` copy and the `sent` copy are pushed to that same connection. -/
theorem sendMessage_self_delivery (st : ServerState)
    (sid text mid : String) (now : Nat) (u : User)
    (h : mapGet st.users sid = some u) :
    sendMessage sid sid text mid now st =
      ({ users := st.users,
         conversations := mapSet st.conversations
           (u.username ++ "-" ++ u.username)
           ((mapGet st.conversations (u.username ++ "-" ++ u.username)).getD []
             ++ [⟨mid, sid, u.username, sid, text, now⟩]) },
       [Emit.newMessage sid ⟨mid, sid, u.username, sid, text, now⟩,
        Emit.messageSent sid ⟨mid, sid, u.username, sid, text, now⟩]) := by
  simp [sendMessage, h, conversationKey_self]

/-- Witness for C10: `alice` on `s1` messages herself. -/
theorem sendMessage_self_delivery_witness :
    sendMessage "s1" "s1" "hello me" "m2" 7 stA =
      ({ users := stA.users,
         conversations := mapSet stA.conversations ("alice" ++ "-" ++ "alice")
           ((mapGet stA.conversations ("alice" ++ "-" ++ "alice")).getD []
             ++ [⟨"m2", "s1", "alice", "s1", "hello me", 7⟩]) },
       [Emit.newMessage "s1" ⟨"m2", "s1", "alice", "s1", "hello me", 7⟩,
        Emit.messageSent "s1" ⟨"m2", "s1", "alice", "s1", "hello me", 7⟩]) :=
  sendMessage_self_delivery stA "s1" "hello me" "m2" 7
    ⟨"s1", "alice", 1⟩ (by decide)

theorem logout_conversations (sid : String) (st : ServerState) :
    (logout sid st).1.conversations = st.conversations := by
  simp [logout, disconnect, removeUser_conversations]

theorem join_conversations (sid : String) (username : Option String)
    (now : Nat) (st : ServerState) :
    (join sid username now st).1.conversations = st.conversations := by
  cases username with
  | none => rfl
  | some u =>
    by_cases h : strTrim u = "" <;> simp [join, h]

theorem heartbeat_conversations (sid : String) (now : Nat)
    (st : ServerState) :
    (heartbeat sid now st).conversations = st.conversations := by
  unfold heartbeat
  cases hg : mapGet st.users sid <;> rfl

theorem sweep_eq (now : Nat) (openSockets : List String) (st : ServerState)
    (hnd : (st.users.map Prod.fst).Nodup) :
    sweep now openSockets st =
      ({ st with users :=
          st.users.filter (fun e => !(isStale now openSockets e.1 e.2)) },
       if (st.users.filter (fun e => isStale now openSockets e.1 e.2)).isEmpty
       then []
       else [Emit.usersList (userValues
              (st.users.filter (fun e => !(isStale now openSockets e.1 e.2))))]) := by
  have hids : ∀ sid2 ∈ (((st.users.filter
        (fun e => isStale now openSockets e.1 e.2)).filter
          (fun e => openSockets.contains e.1)).map Prod.fst),
      mapGet (st.users.filter (fun e => !(isStale now openSockets e.1 e.2)))
        sid2 = none := by
    intro sid2 hmem
    simp only [List.mem_map, List.mem_filter] at hmem
    obtain ⟨⟨sid3, u⟩, ⟨⟨hmemL, hstale⟩, _⟩, hfst⟩ := hmem
    simp only at hfst
    subst hfst
    apply mapGet_filter_none
    intro v hv
    have hv2 : v = u := keys_nodup_unique st.users sid3 v u hnd hv hmemL
    subst hv2
    simp [hstale]
  have hrd := runDisconnects_noop
    (((st.users.filter (fun e => isStale now openSockets e.1 e.2)).filter
        (fun e => openSockets.contains e.1)).map Prod.fst)
    ({ st with users :=
        st.users.filter (fun e => !(isStale now openSockets e.1 e.2)) })
    (fun sid2 hm => hids sid2 hm)
  simp only [sweep]
  rw [hrd]
  simp

/-- C1 counterexample: with `alice` online on `s1`, a send from `s1` to
the absent handle `s2` produces NO emission at all — in particular no
error is reported to the sender, refuting the claim that the failure is
"reported synchronously to the originating sender (never a silent
non-response)". The sender-absent case (`s9` never joined) is equally
silent. The store is indeed left unchanged. -/
theorem sendMessage_offline_silent :
    sendMessage "s1" "s2" "hi" "m1" 2 stA = (stA, [])
    ∧ sendMessage "s9" "s1" "hi" "m1" 2 stA = (stA, []) :=
  ⟨by decide, by decide⟩

/-- C1 (amended): if the sender handle is absent from the Presence
Registry, or the recipient handle is, `sendMessage` has no side effect at
all: the state (registry and Conversation Store) is returned unchanged and
nothing is emitted to anyone — the failure is a silent non-response; no
error event is sent to the sender. -/
theorem sendMessage_failure_no_effects (st : ServerState)
    (sid rid text mid : String) (now : Nat)
    (h : mapGet st.users sid = none ∨ mapGet st.users rid = none) :
    sendMessage sid rid text mid now st = (st, []) := by
  unfold sendMessage
  rcases h with h | h
  · rw [h]
  · cases hs : mapGet st.users sid with
    | none => rfl
    | some s => rw [h]

/-- Witness for C1 (amended): `s2` never joined, so it cannot send. -/
theorem sendMessage_failure_no_effects_witness :
    sendMessage "s2" "s9" "yo" "m3" 4 stA = (stA, []) :=
  sendMessage_failure_no_effects stA "s2" "s9" "yo" "m3" 4
    (Or.inl (by decide))

/-- C2 counterexample: `alice` (lastSeen 1) is stale at time 40001 and is
evicted by the sweep, yet the sweep's entire emission is the one `users`
snapshot — no `userLeft` delta is broadcast, refuting "each such eviction
triggers exactly one userLeft presence-delta broadcast". (The sweep
deletes the entry before force-disconnecting the socket, so the fired
`disconnect` handler finds no entry and emits nothing.) -/
theorem sweep_evicts_without_userLeft :
    (sweep 40001 ["s1"] stA).1.users = []
    ∧ (sweep 40001 ["s1"] stA).2 = [Emit.usersList []]
    ∧ countUserLeft (sweep 40001 ["s1"] stA).2 = 0 :=
  ⟨by decide, by decide, by decide⟩

/-- C2 (amended): a sweep removes exactly those registry entries that are
stale — `lastSeen` falsy, or `now - lastSeen > HEARTBEAT_TIMEOUT_MS`, or
the underlying channel closed — and the whole broadcast of a changed sweep
is exactly one full `users` snapshot; it emits no `userLeft` delta (unlike
an explicit disconnect), and an idle sweep emits nothing. -/
theorem sweep_eviction_snapshot_only (now : Nat) (openSockets : List String)
    (st : ServerState) (hnd : (st.users.map Prod.fst).Nodup) :
    (sweep now openSockets st).1.users
        = st.users.filter (fun e => !(isStale now openSockets e.1 e.2))
    ∧ (sweep now openSockets st).1.conversations = st.conversations
    ∧ (sweep now openSockets st).2
        = (if (st.users.filter (fun e => isStale now openSockets e.1 e.2)).isEmpty
           then []
           else [Emit.usersList (userValues (st.users.filter
                  (fun e => !(isStale now openSockets e.1 e.2))))])
    ∧ countUserLeft (sweep now openSockets st).2 = 0 := by
  rw [sweep_eq now openSockets st hnd]
  refine ⟨rfl, rfl, rfl, ?_⟩
  by_cases hE : (st.users.filter
      (fun e => isStale now openSockets e.1 e.2)).isEmpty <;>
    simp [hE, countUserLeft]

/-- Witness for C2 (amended): at time 30002 `alice` (lastSeen 1) is stale
while `bob` (lastSeen 2) is exactly at the threshold and kept. -/
theorem sweep_eviction_snapshot_only_witness :
    (sweep 30002 ["s1", "s2"] stAB).1.users
        = stAB.users.filter (fun e => !(isStale 30002 ["s1", "s2"] e.1 e.2))
    ∧ (sweep 30002 ["s1", "s2"] stAB).1.conversations = stAB.conversations
    ∧ (sweep 30002 ["s1", "s2"] stAB).2
        = (if (stAB.users.filter
                (fun e => isStale 30002 ["s1", "s2"] e.1 e.2)).isEmpty
           then []
           else [Emit.usersList (userValues (stAB.users.filter
                  (fun e => !(isStale 30002 ["s1", "s2"] e.1 e.2))))])
    ∧ countUserLeft (sweep 30002 ["s1", "s2"] stAB).2 = 0 :=
  sweep_eviction_snapshot_only 30002 ["s1", "s2"] stAB (by decide)

/-- C3 counterexample: `s1` joins as `alice`, then joins again as `bob`;
the registry entry for the same live handle now carries the identity
`bob`, refuting "the identity stored in that handle's entry never changes
… no subsequent operation (including a second join request on the same
handle) alters the identity". -/
theorem join_rebinds_identity :
    mapGet stA.users "s1" = some ⟨"s1", "alice", 1⟩
    ∧ mapGet (join "s1" (some "bob") 2 stA).1.users "s1"
        = some ⟨"s1", "bob", 2⟩ :=
  ⟨by decide, by decide⟩

/-- C3 (amended): the identity stored for a handle is changed only by a
subsequent successful join on that same handle, which replaces the entry
with the newly supplied identity; every other operation preserves every
stored identity — heartbeat rewrites only `lastSeen` (the handle/identity
association is untouched), `sendMessage` leaves the registry untouched,
removal (logout/disconnect) and the sweep only delete entries (any entry
they retain is an entry of the original registry, identity included), a
join on a different handle leaves this handle's binding untouched, and a
failed join (absent or whitespace-only identity) changes nothing at
all. -/
theorem identity_changed_only_by_rejoin (st : ServerState) :
    (∀ sid now, (heartbeat sid now st).users.map (fun e => (e.1, e.2.username))
        = st.users.map (fun e => (e.1, e.2.username)))
    ∧ (∀ sid rid text mid now,
        (sendMessage sid rid text mid now st).1.users = st.users)
    ∧ (∀ sid uname now, ¬ strTrim uname = "" →
        mapGet (join sid (some uname) now st).1.users sid
          = some ⟨sid, uname, now⟩)
    ∧ (∀ sid e, e ∈ (removeUser sid st).1.users → e ∈ st.users)
    ∧ (∀ now openSockets e,
        e ∈ (sweep now openSockets st).1.users → e ∈ st.users)
    ∧ (∀ sid sid2 username now, sid ≠ sid2 →
        mapGet (join sid2 username now st).1.users sid = mapGet st.users sid)
    ∧ (∀ sid username now,
        username = none ∨ (∃ s, username = some s ∧ strTrim s = "") →
        (join sid username now st).1 = st) := by
  refine ⟨?_, ?_, ?_, ?_, ?_, ?_, ?_⟩
  · intro sid now
    unfold heartbeat
    cases hg : mapGet st.users sid with
    | none => rfl
    | some u => exact mapSet_map_of_get _ st.users sid u _ hg rfl
  · intro sid rid text mid now
    unfold sendMessage
    cases h1 : mapGet st.users sid with
    | none => rfl
    | some s => cases h2 : mapGet st.users rid <;> rfl
  · intro sid uname now h
    simp [join, h, mapGet_mapSet_self]
  · intro sid e hm
    exact removeUser_users_mem sid st e hm
  · intro now openSockets e hm
    simp only [sweep] at hm
    exact List.mem_of_mem_filter (runDisconnects_users_mem _ _ e hm)
  · intro sid sid2 username now hne
    cases username with
    | none => rfl
    | some u =>
      by_cases h : strTrim u = ""
      · simp [join, h]
      · simp [join, h, mapGet_mapSet_ne st.users sid2 sid _ hne]
  · intro sid username now h
    rcases h with h | ⟨s, hs, ht⟩
    · subst h; rfl
    · subst hs; simp [join, ht]

/-- Witness for C3 (amended): `carol` joining on the fresh handle `s3`
binds exactly the supplied identity and leaves `s1`'s binding (`alice`)
untouched, and a whitespace-only join on `s1` itself changes nothing. -/
theorem identity_changed_only_by_rejoin_witness :
    mapGet (join "s3" (some "carol") 4 stAB).1.users "s3"
      = some ⟨"s3", "carol", 4⟩
    ∧ mapGet (join "s3" (some "carol") 4 stAB).1.users "s1"
        = mapGet stAB.users "s1"
    ∧ (join "s1" (some "  ") 9 stAB).1 = stAB :=
  ⟨(identity_changed_only_by_rejoin stAB).2.2.1 "s3" "carol" 4 (by decide),
   (identity_changed_only_by_rejoin stAB).2.2.2.2.2.1 "s1" "s3"
     (some "carol") 4 (by decide),
   (identity_changed_only_by_rejoin stAB).2.2.2.2.2.2 "s1" (some "  ") 9
     (Or.inr ⟨"  ", rfl, by decide⟩)⟩

/-- C6: removal is idempotent: on a joined handle, a single disconnect (or
logout) broadcasts exactly one `userLeft`; repeating either removal finds
no registry entry, emits nothing, and leaves the state unchanged, so any
two-removal sequence broadcasts exactly one `userLeft` in total. -/
theorem removal_idempotent (st : ServerState) (sid : String) (u : User)
    (h : mapGet st.users sid = some u)
    (hnd : (st.users.map Prod.fst).Nodup) :
    countUserLeft (disconnect sid st).2 = 1
    ∧ countUserLeft (logout sid st).2 = 1
    ∧ (logout sid st).1 = (disconnect sid st).1
    ∧ disconnect sid (disconnect sid st).1 = ((disconnect sid st).1, [])
    ∧ logout sid (logout sid st).1 = ((logout sid st).1, []) := by
  have hr : removeUser sid st =
      ({ st with users := mapDelete st.users sid },
       [Emit.usersList (userValues (mapDelete st.users sid)),
        Emit.userLeft sid u]) := by
    unfold removeUser
    rw [h]
  have hnone : mapGet (mapDelete st.users sid) sid = none :=
    mapGet_mapDelete_self st.users sid hnd
  have hr2 : removeUser sid ({ st with users := mapDelete st.users sid }) =
      (({ st with users := mapDelete st.users sid } : ServerState), []) := by
    unfold removeUser
    simp [hnone]
  have hd : disconnect sid st =
      ({ st with users := mapDelete st.users sid },
       [Emit.usersList (userValues (mapDelete st.users sid)),
        Emit.userLeft sid u]) := hr
  have hl : logout sid st =
      ({ st with users := mapDelete st.users sid },
       [Emit.usersList (userValues (mapDelete st.users sid)),
        Emit.userLeft sid u]) := by
    simp only [logout, disconnect, hr, hr2, List.append_nil]
  refine ⟨?_, ?_, ?_, ?_, ?_⟩
  · rw [hd]
    rfl
  · rw [hl]
    rfl
  · rw [hl, hd]
  · rw [hd]
    exact hr2
  · rw [hl]
    simp only [logout, disconnect, hr2, List.append_nil]

/-- Witness for C6: removing `alice`'s handle twice. -/
theorem removal_idempotent_witness :
    countUserLeft (disconnect "s1" stA).2 = 1
    ∧ countUserLeft (logout "s1" stA).2 = 1
    ∧ (logout "s1" stA).1 = (disconnect "s1" stA).1
    ∧ disconnect "s1" (disconnect "s1" stA).1 = ((disconnect "s1" stA).1, [])
    ∧ logout "s1" (logout "s1" stA).1 = ((logout "s1" stA).1, []) :=
  removal_idempotent stA "s1" ⟨"s1", "alice", 1⟩ (by decide) (by decide)

/-- C7: history lookup is symmetric in its two identity arguments (both
orders read the same canonical key), is untouched by every
connection-lifecycle operation (disconnect, logout, join, heartbeat,
sweep), and a successfully routed message is appended to the history of
its two identities — so every routed message remains retrievable
regardless of intervening disconnects or reconnects. -/
theorem history_symmetric_and_durable :
    (∀ a b st, getHistory a b st = getHistory b a st)
    ∧ (∀ a b sid st, getHistory a b (disconnect sid st).1 = getHistory a b st)
    ∧ (∀ a b sid st, getHistory a b (logout sid st).1 = getHistory a b st)
    ∧ (∀ a b sid username now st,
        getHistory a b (join sid username now st).1 = getHistory a b st)
    ∧ (∀ a b sid now st,
        getHistory a b (heartbeat sid now st) = getHistory a b st)
    ∧ (∀ a b now openSockets st,
        getHistory a b (sweep now openSockets st).1 = getHistory a b st)
    ∧ (∀ st sid rid text mid now sender recipient,
        mapGet st.users sid = some sender →
        mapGet st.users rid = some recipient →
        getHistory sender.username recipient.username
            (sendMessage sid rid text mid now st).1
          = getHistory sender.username recipient.username st
              ++ [⟨mid, sid, sender.username, rid, text, now⟩]) := by
  refine ⟨?_, ?_, ?_, ?_, ?_, ?_, ?_⟩
  · intro a b st
    unfold getHistory
    rw [conversationKey_comm]
  · intro a b sid st
    unfold getHistory disconnect
    rw [removeUser_conversations]
  · intro a b sid st
    unfold getHistory
    rw [logout_conversations]
  · intro a b sid username now st
    unfold getHistory
    rw [join_conversations]
  · intro a b sid now st
    unfold getHistory
    rw [heartbeat_conversations]
  · intro a b now openSockets st
    unfold getHistory
    rw [sweep_conversations]
  · intro st sid rid text mid now sender recipient hs hr
    simp only [sendMessage, hs, hr, getHistory]
    rw [mapGet_mapSet_self]
    simp

/-- Witness for C7: the routed message `m1` lands in ("alice","bob")'s
history. -/
theorem history_symmetric_and_durable_witness :
    getHistory "alice" "bob" (sendMessage "s1" "s2" "hi" "m1" 5 stAB).1
      = getHistory "alice" "bob" stAB ++ [⟨"m1", "s1", "alice", "s2", "hi", 5⟩] :=
  history_symmetric_and_durable.2.2.2.2.2.2 stAB "s1" "s2" "hi" "m1" 5
    ⟨"s1", "alice", 1⟩ ⟨"s2", "bob", 2⟩ (by decide) (by decide)
